import Mathlib

/-!
Shallow embedding of the RTMS ingestion core of this repository:

* `rtms-server/library/rtmsManager/utils/RTMSFlagHelper.js`
* `rtms-server/library/rtmsManager/utils/signatureHelper.js`
  (the `ZOOM_STATUS_CODES` table and the `RTMSError` category lookup)
* `rtms-server/library/rtmsManager/signalingSocketMessageHandler.js`
  (the `msg_type = 2` handshake-response branch)
* `rtms-server/library/rtmsManager/signalingSocket.js` (the close handler)
* `rtms-server/library/rtmsManager/helpers/audio/MediaAudioFiller.js` and
  `rtms-server/library/rtmsManager/helpers/video/MediaVideoFiller.js`
* `server/helpers/transcript-buffer.js`

JS numbers on these paths are integer-valued (bit masks, status codes,
millisecond timestamps), so they are embedded as `Nat` / `Int`.
-/

/-- Media-type bit flags, from `TYPE_FLAGS` in `RTMSFlagHelper.js`.
The list order is the `Object.entries` iteration order of the literal. -/
def TYPE_FLAGS : List (String × Nat) :=
  [("audio", 1), ("video", 2), ("sharescreen", 4), ("transcript", 8), ("chat", 16)]

/-- The `server_urls` object of a signaling handshake response
(`msg.media_server.server_urls`). Each key is either absent (`none`)
or present with a string value. -/
structure ServerUrls where
  audio : Option String := none
  video : Option String := none
  sharescreen : Option String := none
  transcript : Option String := none
  chat : Option String := none
  all : Option String := none
deriving DecidableEq, Repr

/-- JS property access `serverUrls[type]` for the five media-type keys. -/
def ServerUrls.get (u : ServerUrls) : String → Option String
  | "audio" => u.audio
  | "video" => u.video
  | "sharescreen" => u.sharescreen
  | "transcript" => u.transcript
  | "chat" => u.chat
  | "all" => u.all
  | _ => none

/-- JS truthiness of `serverUrls[type]`: an absent key and the empty
string are falsy, any other string is truthy. -/
def jsTruthy : Option String → Bool
  | some s => s != ""
  | none => false

/-- `RTMSFlagHelper.calculateEffectiveFlags` from `RTMSFlagHelper.js`:
if `requestedFlags !== 32` the requested flags are returned unchanged;
only for the ALL sentinel (32) does it OR together the flags of the
media types whose URL is present (truthy) in the response. -/
def calculateEffectiveFlags (requestedFlags : Nat) (serverUrls : ServerUrls) : Nat :=
  if requestedFlags ≠ 32 then requestedFlags
  else TYPE_FLAGS.foldl
    (fun eff tf => if jsTruthy (serverUrls.get tf.1) then eff ||| tf.2 else eff) 0

/-- Modelled from the spec: `available` is "the bitwise OR of media types
for which the response supplied a URL" (spec §4.3 step 3). Used only to
compare the spec's `requested & available` formula with the source. -/
def availableMask (serverUrls : ServerUrls) : Nat :=
  TYPE_FLAGS.foldl
    (fun eff tf => if jsTruthy (serverUrls.get tf.1) then eff ||| tf.2 else eff) 0

/-- Modelled from the spec: the effective media mask as the spec defines
it, `requested & available` (spec §4.3 step 3 and the glossary). -/
def specEffectiveMask (requestedFlags : Nat) (serverUrls : ServerUrls) : Nat :=
  requestedFlags &&& availableMask serverUrls

/-- Number of set bits (the spec's `popcount`). Bits of `n` above
index `n` are zero, so scanning indices `0..n` is exhaustive. -/
def popcount (n : Nat) : Nat :=
  ((List.range (n + 1)).filter (fun i => n.testBit i)).length

/-- One entry of the `ZOOM_STATUS_CODES` table in `signatureHelper.js`:
the symbolic code and the category (messages are not needed by any claim
and are omitted). -/
structure ZoomStatusInfo where
  code : String
  category : String
deriving DecidableEq, Repr

/-- The `ZOOM_STATUS_CODES` table from `signatureHelper.js` (lines
266-288): vendor status code to code/category. Absent keys give `none`,
as JS object lookup gives `undefined`. -/
def ZOOM_STATUS_CODES : Nat → Option ZoomStatusInfo
  | 0 => some ⟨"SUCCESS", "success"⟩
  | 1 => some ⟨"INVALID_SIGNATURE", "auth"⟩
  | 2 => some ⟨"INVALID_CLIENT_ID", "auth"⟩
  | 3 => some ⟨"INVALID_MEETING_UUID", "meeting"⟩
  | 4 => some ⟨"INVALID_STREAM_ID", "stream"⟩
  | 5 => some ⟨"MEETING_NOT_FOUND", "meeting"⟩
  | 6 => some ⟨"STREAM_NOT_FOUND", "stream"⟩
  | 7 => some ⟨"INVALID_PARAMETER", "request"⟩
  | 8 => some ⟨"PERMISSION_DENIED", "permission"⟩
  | 9 => some ⟨"RATE_LIMIT_EXCEEDED", "limit"⟩
  | 10 => some ⟨"SERVER_ERROR", "server"⟩
  | 11 => some ⟨"SERVICE_UNAVAILABLE", "server"⟩
  | 12 => some ⟨"TIMEOUT", "network"⟩
  | 13 => some ⟨"CONNECTION_CLOSED", "network"⟩
  | 14 => some ⟨"PROTOCOL_ERROR", "protocol"⟩
  | 15 => some ⟨"HANDSHAKE_FAILED", "auth"⟩
  | 16 => some ⟨"MEDIA_NOT_AVAILABLE", "media"⟩
  | 17 => some ⟨"ENCRYPTION_ERROR", "security"⟩
  | 18 => some ⟨"INVALID_TOKEN", "auth"⟩
  | 19 => some ⟨"DUPLICATE_CONNECTION", "connection"⟩
  | 20 => some ⟨"MAX_CONNECTIONS", "limit"⟩
  | _ => none

/-- Category of `RTMSError.fromZoomStatus(statusCode)`: for a code in the
table the table's category; otherwise the constructor falls through to
`SDK_ERROR_CODES['UNKNOWN_STATUS']`, which does not exist, and ends at
the default branch with category `'unknown'`. -/
def fromZoomStatusCategory (statusCode : Nat) : String :=
  match ZOOM_STATUS_CODES statusCode with
  | some info => info.category
  | none => "unknown"

/-- The category list in `signalingSocketMessageHandler.js` line 108
(and §7 of the spec): categories that disable reconnection. -/
def nonRetryableCategories : List String :=
  ["auth", "security", "request", "meeting", "stream"]

/-- The slice of connection state that the `msg_type = 2` branch touches:
`conn.shouldReconnect` and the `conn.config.useUnifiedMediaSocket` flag. -/
structure SignalingConn where
  shouldReconnect : Bool
  useUnifiedMediaSocket : Bool
deriving DecidableEq, Repr

/-- A media socket opened by `connectToMediaWebSocket`: the URL it was
given, the media type label, and the media-type flag. -/
structure OpenedMediaSocket where
  url : Option String
  mediaType : String
  flag : Nat
deriving DecidableEq, Repr

/-- The URL used for the sub-socket of `type` in split mode:
`msg.media_server?.server_urls?.[type] || mediaUrl` where `mediaUrl`
is `server_urls.all` (JS `||` falls through on falsy values). -/
def typeUrl (serverUrls : ServerUrls) (ty : String) : Option String :=
  if jsTruthy (serverUrls.get ty) then serverUrls.get ty else serverUrls.all

/-- Result of handling a `msg_type = 2` signaling handshake response:
the updated connection state, the media sockets opened, the category of
the emitted `RTMSError`, if any, and whether the handler threw (an
uncaught exception opens no sockets and emits nothing). -/
structure HandshakeOutcome where
  conn : SignalingConn
  openedSockets : List OpenedMediaSocket
  emittedErrorCategory : Option String
  threw : Bool
deriving DecidableEq, Repr

/-- The `msg_type = 2` branch of `handleSignalingMessage`
(`signalingSocketMessageHandler.js` lines 29-115). The `status_code = 0`
branch first runs `new URL(msg.media_server?.server_urls?.all)` (line
35) unconditionally: when `all` is absent (`new URL(undefined)`) or is
a string the WHATWG URL constructor rejects, the handler throws before
opening anything. The constructor is Node library code, not repository
code, so its success on a string is abstracted as the `urlParses`
parameter. On a successful parse the branch computes the effective
flags and opens one media socket per set `TYPE_FLAGS` bit (split mode)
or a single `all` socket (unified mode); on a non-zero status it builds
an `RTMSError`, clears `conn.shouldReconnect` when the category is
non-retryable, and emits the error. -/
def handleSignalingHandshakeResp (urlParses : String → Bool) (statusCode : Nat)
    (serverUrls : ServerUrls) (mediaTypesFlag : Nat) (conn : SignalingConn) :
    HandshakeOutcome :=
  if statusCode = 0 then
    match serverUrls.all with
    | none =>
      { conn := conn, openedSockets := [], emittedErrorCategory := none,
        threw := true }
    | some mediaUrl =>
      if urlParses mediaUrl then
        let effectiveFlags := calculateEffectiveFlags mediaTypesFlag serverUrls
        if conn.useUnifiedMediaSocket then
          { conn := conn
            openedSockets := [⟨serverUrls.all, "all", effectiveFlags⟩]
            emittedErrorCategory := none
            threw := false }
        else
          { conn := conn
            openedSockets := TYPE_FLAGS.filterMap (fun tf =>
              if effectiveFlags &&& tf.2 ≠ 0 then
                some ⟨typeUrl serverUrls tf.1, tf.1, tf.2⟩
              else none)
            emittedErrorCategory := none
            threw := false }
      else
        { conn := conn, openedSockets := [], emittedErrorCategory := none,
          threw := true }
  else
    let category := fromZoomStatusCategory statusCode
    { conn := { conn with shouldReconnect :=
        if nonRetryableCategories.contains category then false
        else conn.shouldReconnect }
      openedSockets := []
      emittedErrorCategory := some category
      threw := false }

/-- The `signalingWs.on('close')` handler in `signalingSocket.js`
(lines 118-141): a 3-second reconnect timer is scheduled exactly when
`conn.shouldReconnect` is set. -/
def scheduleReconnectOnClose (conn : SignalingConn) : Bool :=
  conn.shouldReconnect

/-- A packet handed to a media filler by `processBuffer`. The payload is
abstracted to a `Nat` tag; only timestamps drive the filler logic. -/
structure MediaPacket where
  data : Nat
  timestamp : Int
deriving DecidableEq, Repr

/-- The mutable state of a `MediaAudioFiller` / `MediaVideoFiller`
instance that `tick` reads and writes. `fillerData` stands for the
pre-rolled silence frame (audio) or the black frame (video).
`expectedTimestamp` is `null` in the source until the first packet;
here it is guarded by `isFirstPacket`. -/
structure FillerState where
  expectedTimestamp : Int
  isFirstPacket : Bool
  buffer : List MediaPacket
  frameDuration : Int
  fillerData : Nat
deriving DecidableEq, Repr

/-- One frame emitted by a filler `data` event: a real buffered packet
or a generated filler frame, with the timestamp argument of the emit. -/
inductive FillerOut
  | real (data : Nat) (timestamp : Int)
  | filler (data : Nat) (timestamp : Int)
deriving DecidableEq, Repr

/-- Timestamp carried by an emitted frame. -/
def FillerOut.timestamp : FillerOut → Int
  | .real _ ts => ts
  | .filler _ ts => ts

/-- `MediaAudioFiller.tick` (`MediaAudioFiller.js` lines 45-92) and
`MediaVideoFiller.tick` (`MediaVideoFiller.js` lines 44-84); the two
methods are control-flow identical, differing only in the filler
payload, which here is the state's `fillerData`. Each branch performs
at most one `emit`, so the output is an `Option`. -/
def fillerTick (s : FillerState) : FillerState × Option FillerOut :=
  match s.buffer with
  | [] => (s, none)
  | candidate :: rest =>
    if s.isFirstPacket then
      ({ s with buffer := rest, expectedTimestamp := candidate.timestamp,
                isFirstPacket := false },
       some (.real candidate.data candidate.timestamp))
    else
      let timeDiff := candidate.timestamp - s.expectedTimestamp
      if |timeDiff| < s.frameDuration * 3 then
        ({ s with buffer := rest,
                  expectedTimestamp := candidate.timestamp + s.frameDuration },
         some (.real candidate.data candidate.timestamp))
      else if timeDiff < -s.frameDuration * 10 then
        ({ s with buffer := rest,
                  expectedTimestamp := candidate.timestamp + s.frameDuration },
         some (.real candidate.data candidate.timestamp))
      else if timeDiff < 0 then
        ({ s with buffer := rest }, none)
      else
        ({ s with expectedTimestamp := s.expectedTimestamp + s.frameDuration },
         some (.filler s.fillerData s.expectedTimestamp))

/-- `insertSorted` of both fillers: the binary search computes the first
index whose timestamp is not below the item's and splices the item
there; on the sorted buffers the fillers maintain this is the same as
this linear scan. -/
def insertSorted (item : MediaPacket) : List MediaPacket → List MediaPacket
  | [] => [item]
  | p :: ps =>
    if p.timestamp < item.timestamp then p :: insertSorted item ps
    else item :: p :: ps

/-- `MediaAudioFiller.processBuffer`: fast-path append when the new
timestamp is at least the last buffered one, else sorted insert. -/
def processBufferAudio (item : MediaPacket) (buffer : List MediaPacket) :
    List MediaPacket :=
  match buffer.getLast? with
  | none => buffer ++ [item]
  | some last =>
    if last.timestamp ≤ item.timestamp then buffer ++ [item]
    else insertSorted item buffer

/-- `MediaVideoFiller.processBuffer`: always sorted insert. -/
def processBufferVideo (item : MediaPacket) (buffer : List MediaPacket) :
    List MediaPacket :=
  insertSorted item buffer

/-- An observable step of a running filler: a packet arrival
(`processBuffer`) or a timer tick. -/
inductive FillerOp
  | arrive (data : Nat) (timestamp : Int)
  | tick
deriving DecidableEq, Repr

/-- One step of a filler run. `insert` is the buffer-insertion routine
(`processBufferAudio` or `processBufferVideo`); `processBuffer` mutates
only `this.buffer`. -/
def fillerStep (insert : MediaPacket → List MediaPacket → List MediaPacket)
    (s : FillerState) : FillerOp → FillerState × List FillerOut
  | .arrive d ts => ({ s with buffer := insert ⟨d, ts⟩ s.buffer }, [])
  | .tick =>
    let r := fillerTick s
    (r.1, r.2.toList)

/-- A filler run: fold `fillerStep` over a schedule of arrivals and
ticks, collecting emitted frames in order. -/
def fillerRun (insert : MediaPacket → List MediaPacket → List MediaPacket)
    (s : FillerState) : List FillerOp → FillerState × List FillerOut
  | [] => (s, [])
  | op :: ops =>
    let r := fillerStep insert s op
    let rest := fillerRun insert r.1 ops
    (rest.1, r.2 ++ rest.2)

/-- State of a freshly constructed filler: no packets seen yet. -/
def initFiller (frameDuration : Int) (fillerData : Nat) : FillerState :=
  { expectedTimestamp := 0, isFirstPacket := true, buffer := [],
    frameDuration := frameDuration, fillerData := fillerData }

/-- A tick is backward-safe when any frame it emits (after the first
packet) carries a timestamp at least the current expected timestamp:
it is a filler frame, or a real packet that is not behind schedule. -/
def tickGood (s : FillerState) : Bool :=
  match (fillerTick s).2 with
  | none => true
  | some e => s.isFirstPacket || decide (s.expectedTimestamp ≤ e.timestamp)

/-- A schedule is backward-safe from `s` when every tick along it is. -/
def goodRun (insert : MediaPacket → List MediaPacket → List MediaPacket) :
    FillerState → List FillerOp → Bool
  | _, [] => true
  | s, op :: ops =>
    (match op with
     | FillerOp.tick => tickGood s
     | FillerOp.arrive _ _ => true) &&
    goodRun insert (fillerStep insert s op).1 ops

/-- Whether a tick from `s` takes the silent-drop branch (a small
backward jump: the head packet is behind `expected` by at least
`3·frameDuration` but no more than `10·frameDuration`). -/
def tickDrops (s : FillerState) : Bool :=
  match s.buffer with
  | [] => false
  | candidate :: _ =>
    let timeDiff := candidate.timestamp - s.expectedTimestamp
    !s.isFirstPacket && !decide (|timeDiff| < s.frameDuration * 3) &&
      !decide (timeDiff < -s.frameDuration * 10) && decide (timeDiff < 0)

/-- One utterance held by the transcript buffer
(`transcript-buffer.js`). The timestamp is the ISO string the webhook
handler passes; the buffer only copies it. -/
structure Utterance where
  speakerId : String
  speakerName : String
  text : String
  timestamp : String
deriving DecidableEq, Repr

/-- The state of a `TranscriptBuffer` (`transcript-buffer.js`):
`speakerLastSummarized` is the `Map` from speaker id to the last
summarised index, as an insertion-ordered association list. Stored
indices are always of the form `utterances.length - 1` with a non-empty
buffer, hence naturals; the absent-key default `-1` is recovered in
`startIndex`. -/
structure TranscriptBuffer where
  meetingId : String
  utterances : List Utterance
  speakerLastSummarized : List (String × Nat)
  wordCount : Nat
  chunkSeq : Nat
deriving DecidableEq, Repr

/-- `Map.get`: the value bound to `k`, if any. -/
def mapGet? (m : List (String × Nat)) (k : String) : Option Nat :=
  (m.find? (fun p => p.1 == k)).map (fun p => p.2)

/-- `Map.set`: update the existing binding in place or append a new one
(JS `Map` preserves insertion order). -/
def mapSet : List (String × Nat) → String → Nat → List (String × Nat)
  | [], k, v => [(k, v)]
  | p :: ps, k, v => if p.1 == k then (k, v) :: ps else p :: mapSet ps k v

/-- `text.split(/\s+/)` of JS: split on maximal whitespace runs; a
leading (resp. trailing) run contributes a leading (resp. trailing)
empty piece, and the empty string yields one empty piece. The `fuel`
argument makes the recursion structural (each step consumes at least
one character, so `fuel = length` never runs out). -/
def jsSplitWhitespaceAux : Nat → List Char → String → List String
  | _, [], acc => [acc]
  | 0, _, acc => [acc]
  | fuel + 1, c :: cs, acc =>
    if c.isWhitespace then
      acc :: jsSplitWhitespaceAux fuel (cs.dropWhile Char.isWhitespace) ""
    else
      jsSplitWhitespaceAux fuel cs (acc.push c)

/-- See `jsSplitWhitespaceAux`. -/
def jsSplitWhitespace (s : String) : List String :=
  jsSplitWhitespaceAux s.data.length s.data ""

/-- `text.split(/\s+/).length`, the word-count increment of `append`. -/
def jsWordCount (s : String) : Nat :=
  (jsSplitWhitespace s).length

/-- `Array.prototype.join(sep)` for a list of strings. -/
def joinWith (sep : String) : List String → String
  | [] => ""
  | [x] => x
  | x :: y :: xs => x ++ sep ++ joinWith sep (y :: xs)

/-- `[...new Set(l)]`: deduplicate keeping first occurrences in order
(structural recursion on a fuel bounded by the length, which each step
decreases at least by one, so the fuel never runs out). -/
def jsDedupAux : Nat → List String → List String
  | _, [] => []
  | 0, l => l
  | fuel + 1, x :: xs => x :: jsDedupAux fuel (xs.filter (fun y => y ≠ x))

/-- See `jsDedupAux`. -/
def jsDedup (l : List String) : List String :=
  jsDedupAux l.length l

/-- An event emitted by the transcript buffer: `summarize` (trigger A)
or `chunk` (trigger B), with the payload fields of the source `emit`. -/
inductive BufferEvent
  | summarize (meetingId speakerId speakerName recentText : String)
      (segmentCount : Nat)
  | chunk (meetingId text : String) (speakerIds speakerNames : List String)
      (startTime endTime chunkId : String)
deriving DecidableEq, Repr

/-- `TranscriptBuffer._triggerChunkFlush` (`transcript-buffer.js` lines
112-150): no-op on an empty buffer; otherwise emit one chunk whose text
joins `"<speakerName>: <text>"` lines, then clear the utterances, the
word count and the per-speaker marks and bump `chunkSeq`. -/
def triggerChunkFlush (b : TranscriptBuffer) : TranscriptBuffer × List BufferEvent :=
  match b.utterances with
  | [] => (b, [])
  | u0 :: rest =>
    let us := u0 :: rest
    let speakerIds := jsDedup (us.map (fun u => u.speakerId))
    let speakerNames := jsDedup (us.map (fun u => u.speakerName))
    let text := joinWith "\n" (us.map (fun u => u.speakerName ++ ": " ++ u.text))
    let startTime := u0.timestamp
    let endTime := (us.getLast (List.cons_ne_nil u0 rest)).timestamp
    let newSeq := b.chunkSeq + 1
    let chunkId := b.meetingId ++ "-chunk-" ++ toString newSeq
    ({ b with utterances := [], wordCount := 0, chunkSeq := newSeq,
              speakerLastSummarized := [] },
     [.chunk b.meetingId text speakerIds speakerNames startTime endTime chunkId])

/-- `lastIdx + 1` of `_triggerSpeakerSummary`: the index the scan for
unsummarised utterances starts at (`lastIdx` defaults to `-1`). -/
def startIndex (b : TranscriptBuffer) (speakerId : String) : Nat :=
  match mapGet? b.speakerLastSummarized speakerId with
  | some lastIdx => lastIdx + 1
  | none => 0

/-- `TranscriptBuffer._triggerSpeakerSummary` (`transcript-buffer.js`
lines 70-106): collect the speaker's utterances from `lastIdx + 1` on;
if none, return silently; otherwise emit one `summarize` whose
`recentText` joins their texts with single spaces, whose `speakerName`
is the last collected one (the loop overwrites it on every match), and
whose `segmentCount` counts the speaker's utterances in the whole
current buffer; then advance the speaker's mark to the buffer end.
`unsummarizedFor` is the loop's collection of the speaker's utterances
from `lastIdx + 1` on. -/
def unsummarizedFor (b : TranscriptBuffer) (speakerId : String) : List Utterance :=
  (b.utterances.drop (startIndex b speakerId)).filter
    (fun u => u.speakerId == speakerId)

/-- The number of utterances of a speaker in the whole current buffer
(the `totalCount` of `_triggerSpeakerSummary`). -/
def speakerCount (b : TranscriptBuffer) (speakerId : String) : Nat :=
  (b.utterances.filter (fun u => u.speakerId == speakerId)).length

def triggerSpeakerSummary (b : TranscriptBuffer) (speakerId : String) :
    TranscriptBuffer × List BufferEvent :=
  match (unsummarizedFor b speakerId).getLast? with
  | none => (b, [])
  | some lastU =>
    let recentText := joinWith " " ((unsummarizedFor b speakerId).map (fun u => u.text))
    ({ b with speakerLastSummarized :=
        mapSet b.speakerLastSummarized speakerId (b.utterances.length - 1) },
     [.summarize b.meetingId speakerId lastU.speakerName recentText
        (speakerCount b speakerId)])

/-- The `speakersWithNew` set of `_triggerSummaries`: speaker ids of
utterances whose index is past the speaker's mark, in first-occurrence
order (JS `Set` insertion order). -/
def speakersWithNew (b : TranscriptBuffer) : List String :=
  jsDedup
    (((b.utterances.enum).filter
        (fun p => startIndex b p.2.speakerId ≤ p.1)).map
      (fun p => p.2.speakerId))

/-- The per-speaker loop of `_triggerSummaries`, threading the buffer
state and concatenating emissions. -/
def runSummaries : TranscriptBuffer → List String → TranscriptBuffer × List BufferEvent
  | b, [] => (b, [])
  | b, sp :: sps =>
    let r := triggerSpeakerSummary b sp
    let rest := runSummaries r.1 sps
    (rest.1, r.2 ++ rest.2)

/-- `TranscriptBuffer._triggerSummaries` (`transcript-buffer.js` lines
56-68): summarise every speaker with new utterances. -/
def triggerSummaries (b : TranscriptBuffer) : TranscriptBuffer × List BufferEvent :=
  runSummaries b (speakersWithNew b)

/-- `TranscriptBuffer.append` (`transcript-buffer.js` lines 32-52):
push the utterance, add its `split(/\s+/)` word count, and flush a
chunk when the running word count reaches 500
(`CHUNK_WORD_THRESHOLD`). The per-speaker idle timer it also resets is
modelled by the free `idleTimer` step of `bufferStep`. -/
def TranscriptBuffer.append (b : TranscriptBuffer) (u : Utterance) :
    TranscriptBuffer × List BufferEvent :=
  let b1 := { b with utterances := b.utterances ++ [u],
                     wordCount := b.wordCount + jsWordCount u.text }
  if 500 ≤ b1.wordCount then triggerChunkFlush b1 else (b1, [])

/-- An observable step of a transcript buffer: an `append` call, the
30-second summary timer, a 10-second speaker-idle timer, or the
60-second chunk timer. Timers may fire at any point of a schedule. -/
inductive BufferOp
  | append (u : Utterance)
  | summariesTimer
  | idleTimer (speakerId : String)
  | chunkTimer
deriving DecidableEq, Repr

/-- Dispatch one buffer step. -/
def bufferStep (b : TranscriptBuffer) : BufferOp → TranscriptBuffer × List BufferEvent
  | .append u => b.append u
  | .summariesTimer => triggerSummaries b
  | .idleTimer sp => triggerSpeakerSummary b sp
  | .chunkTimer => triggerChunkFlush b

/-- A buffer run: fold `bufferStep` over a schedule, collecting the
events in emission order. -/
def bufferRun (b : TranscriptBuffer) : List BufferOp → TranscriptBuffer × List BufferEvent
  | [] => (b, [])
  | op :: ops =>
    let r := bufferStep b op
    let rest := bufferRun r.1 ops
    (rest.1, r.2 ++ rest.2)

/-- State of `new TranscriptBuffer(meetingId)`. -/
def initBuffer (meetingId : String) : TranscriptBuffer :=
  { meetingId := meetingId, utterances := [], speakerLastSummarized := [],
    wordCount := 0, chunkSeq := 0 }

/-- The chunk ids of an event trace, in emission order. -/
def chunkIds (evs : List BufferEvent) : List String :=
  evs.filterMap (fun e =>
    match e with
    | .chunk _ _ _ _ _ _ cid => some cid
    | _ => none)

/-- Whether an event is a chunk emission. -/
def BufferEvent.isChunk : BufferEvent → Bool
  | .chunk _ _ _ _ _ _ _ => true
  | _ => false

/-- The `segmentCount` values of the `summarize` events of a given
speaker, in emission order. -/
def segCountsFor (speakerId : String) (evs : List BufferEvent) : List Nat :=
  evs.filterMap (fun e =>
    match e with
    | .summarize _ sp _ _ n => if sp == speakerId then some n else none
    | _ => none)

/-- The `recentText` fields of the `summarize` events of a trace. -/
def recentTexts (evs : List BufferEvent) : List String :=
  evs.filterMap (fun e =>
    match e with
    | .summarize _ _ _ t _ => some t
    | _ => none)

/-- The utterances a schedule appends, in order. -/
def appendedUtterances (ops : List BufferOp) : List Utterance :=
  ops.filterMap (fun op =>
    match op with
    | .append u => some u
    | _ => none)

/-- A concrete `server_urls` object supplying only the audio URL (and
the `all` fallback), used by concrete instances below. -/
def urlsAudioOnly : ServerUrls :=
  { audio := some "wss://audio.example", all := some "wss://all.example" }

/-- A concrete stand-in for WHATWG URL-constructor success on a string,
accepting exactly strings that start with `wss://`; used to instantiate
the abstract `urlParses` parameter in concrete instances. -/
def wssUrlParses (s : String) : Bool :=
  s.data.take 6 == "wss://".data

-- Helper lemmas shared by the claim theorems below.

lemma length_filterMap_guard {α β : Type} (l : List α) (p : α → Prop) [DecidablePred p]
    (f : α → β) :
    (l.filterMap (fun a => if p a then some (f a) else none)).length =
      (l.filter (fun a => decide (p a))).length := by
  induction l with
  | nil => rfl
  | cons a l ih =>
    by_cases h : p a <;> simp [List.filterMap_cons, List.filter_cons, h, ih]

lemma and_small_mod32 (e c : Nat) (hc : 31 &&& c = c) : e % 32 &&& c = e &&& c := by
  have h31 : e &&& 31 = e % 32 := Nat.and_pow_two_sub_one_eq_mod e 5
  rw [← h31, Nat.and_assoc, hc]

lemma socket_count_flags : ∀ m, m < 32 →
    (TYPE_FLAGS.filter (fun tf => decide (m &&& tf.2 ≠ 0))).length = popcount m := by
  decide

lemma opened_sockets_count (e : Nat) (u : ServerUrls) :
    (TYPE_FLAGS.filterMap (fun tf =>
      if e &&& tf.2 ≠ 0 then
        some (OpenedMediaSocket.mk (typeUrl u tf.1) tf.1 tf.2)
      else none)).length = popcount (e % 32) := by
  rw [length_filterMap_guard]
  rw [show (TYPE_FLAGS.filter (fun tf => decide (e &&& tf.2 ≠ 0))) =
      (TYPE_FLAGS.filter (fun tf => decide (e % 32 &&& tf.2 ≠ 0))) from
    List.filter_congr ?_]
  · exact socket_count_flags (e % 32) (Nat.mod_lt _ (by norm_num))
  · intro tf htf
    have : e % 32 &&& tf.2 = e &&& tf.2 := by
      apply and_small_mod32
      simp only [TYPE_FLAGS, List.mem_cons, List.not_mem_nil, or_false] at htf
      rcases htf with h | h | h | h | h <;> subst h <;> decide
    rw [this]

/-- C1 (amended): on a status-0 response the handler first parses
`server_urls.all` as a URL; when `all` is absent it throws and opens no
socket. When the parse succeeds, the effective media mask is
`available` only when the requested mask is the ALL sentinel 32 - any
other requested mask is used unchanged, without intersecting with
availability - and in split mode the handler opens exactly
`popcount(effective mod 32)` media sub-sockets, one per set
`TYPE_FLAGS` bit of the effective mask. -/
theorem c1_amended (urlParses : String → Bool) (M : Nat) (u : ServerUrls)
    (conn : SignalingConn) (mediaUrl : String)
    (hsplit : conn.useUnifiedMediaSocket = false)
    (hall : u.all = some mediaUrl) (hparse : urlParses mediaUrl = true) :
    calculateEffectiveFlags M u = (if M = 32 then availableMask u else M) ∧
    (handleSignalingHandshakeResp urlParses 0 u M conn).threw = false ∧
    (handleSignalingHandshakeResp urlParses 0 u M conn).openedSockets.length =
      popcount (calculateEffectiveFlags M u % 32) ∧
    ∀ u' : ServerUrls, u'.all = none →
      (handleSignalingHandshakeResp urlParses 0 u' M conn).threw = true ∧
      (handleSignalingHandshakeResp urlParses 0 u' M conn).openedSockets = [] := by
  refine ⟨?_, ?_, ?_, ?_⟩
  · simp [calculateEffectiveFlags, availableMask, ite_not]
  · simp only [handleSignalingHandshakeResp, if_pos rfl, hall, hparse, if_true,
      hsplit, if_neg Bool.false_ne_true]
  · simp only [handleSignalingHandshakeResp, if_pos rfl, hall, hparse, if_true,
      hsplit, if_neg Bool.false_ne_true]
    exact opened_sockets_count _ u
  · intro u' hnone
    simp only [handleSignalingHandshakeResp, if_pos rfl, hnone]
    exact ⟨rfl, rfl⟩


/-- C1 (counterexample): with requested mask 3 (audio|video) and a
response supplying only the audio URL, the code keeps the full mask 3
and opens 2 sub-sockets, while the spec formula `M AND A` gives 1, so
the claimed `effective = M AND A` and `popcount(M AND A)` sockets are
both false. -/
theorem c1_counterexample :
    calculateEffectiveFlags 3 urlsAudioOnly = 3 ∧
    specEffectiveMask 3 urlsAudioOnly = 1 ∧
    (3 : Nat) ≠ 1 ∧
    (handleSignalingHandshakeResp wssUrlParses 0 urlsAudioOnly 3
      ⟨true, false⟩).openedSockets.length = 2 ∧
    popcount (specEffectiveMask 3 urlsAudioOnly) = 1 := by
  refine ⟨by decide, by decide, by decide, by decide, by decide⟩

/-- C7 (amended): the vendor status-code table maps 1, 2, 15, 18 to
auth, 5 to meeting, 10 and 11 to server, 12 and 13 to network, 16 to
media and 17 to security. -/
theorem c7_amended :
    fromZoomStatusCategory 1 = "auth" ∧ fromZoomStatusCategory 2 = "auth" ∧
    fromZoomStatusCategory 15 = "auth" ∧ fromZoomStatusCategory 18 = "auth" ∧
    fromZoomStatusCategory 5 = "meeting" ∧ fromZoomStatusCategory 13 = "network" ∧
    fromZoomStatusCategory 10 = "server" ∧ fromZoomStatusCategory 11 = "server" ∧
    fromZoomStatusCategory 12 = "network" ∧ fromZoomStatusCategory 16 = "media" ∧
    fromZoomStatusCategory 17 = "security" := by decide

/-- C7 (counterexample): status code 13 (`CONNECTION_CLOSED`) is mapped
to category `network`, not `meeting` as the claim states. -/
theorem c7_counterexample :
    fromZoomStatusCategory 13 = "network" ∧ fromZoomStatusCategory 13 ≠ "meeting" := by
  decide

/-- C8: a non-zero handshake status always emits an error of the mapped
category; when that category is non-retryable (`auth`, `security`,
`request`, `meeting`, `stream`) the session clears `shouldReconnect`
and no reconnect is scheduled on close, and for every other category
`shouldReconnect` is untouched, so a previously reconnectable session
still schedules the 3-second reconnect on close. -/
theorem c8_theorem (urlParses : String → Bool) (statusCode : Nat)
    (serverUrls : ServerUrls) (M : Nat)
    (conn : SignalingConn) (hnz : statusCode ≠ 0) :
    (handleSignalingHandshakeResp urlParses statusCode serverUrls M conn).emittedErrorCategory =
      some (fromZoomStatusCategory statusCode) ∧
    (nonRetryableCategories.contains (fromZoomStatusCategory statusCode) = true →
      (handleSignalingHandshakeResp urlParses statusCode serverUrls M conn).conn.shouldReconnect = false ∧
      scheduleReconnectOnClose (handleSignalingHandshakeResp urlParses statusCode serverUrls M conn).conn = false) ∧
    (nonRetryableCategories.contains (fromZoomStatusCategory statusCode) = false →
      (handleSignalingHandshakeResp urlParses statusCode serverUrls M conn).conn.shouldReconnect =
        conn.shouldReconnect ∧
      scheduleReconnectOnClose (handleSignalingHandshakeResp urlParses statusCode serverUrls M conn).conn =
        conn.shouldReconnect) := by
  by_cases hc : nonRetryableCategories.contains (fromZoomStatusCategory statusCode) <;>
    simp [handleSignalingHandshakeResp, if_neg hnz, scheduleReconnectOnClose, hc] <;> tauto

lemma fillerTick_nil {s : FillerState} (h : s.buffer = []) : fillerTick s = (s, none) := by
  simp [fillerTick, h]

lemma fillerTick_first {s : FillerState} {c : MediaPacket} {rest : List MediaPacket}
    (h : s.buffer = c :: rest) (hf : s.isFirstPacket = true) :
    fillerTick s =
      ({ s with buffer := rest, expectedTimestamp := c.timestamp, isFirstPacket := false },
       some (.real c.data c.timestamp)) := by
  simp [fillerTick, h, hf]

lemma fillerTick_near {s : FillerState} {c : MediaPacket} {rest : List MediaPacket}
    (h : s.buffer = c :: rest) (hf : s.isFirstPacket = false)
    (h1 : |c.timestamp - s.expectedTimestamp| < s.frameDuration * 3) :
    fillerTick s =
      ({ s with buffer := rest, expectedTimestamp := c.timestamp + s.frameDuration },
       some (.real c.data c.timestamp)) := by
  simp [fillerTick, h, hf, h1]

lemma fillerTick_resync {s : FillerState} {c : MediaPacket} {rest : List MediaPacket}
    (h : s.buffer = c :: rest) (hf : s.isFirstPacket = false)
    (h1 : ¬ |c.timestamp - s.expectedTimestamp| < s.frameDuration * 3)
    (h2 : c.timestamp - s.expectedTimestamp < -s.frameDuration * 10) :
    fillerTick s =
      ({ s with buffer := rest, expectedTimestamp := c.timestamp + s.frameDuration },
       some (.real c.data c.timestamp)) := by
  simp only [fillerTick, h, hf, Bool.false_eq_true, if_false]
  rw [if_neg h1, if_pos h2]

lemma fillerTick_drop {s : FillerState} {c : MediaPacket} {rest : List MediaPacket}
    (h : s.buffer = c :: rest) (hf : s.isFirstPacket = false)
    (h1 : ¬ |c.timestamp - s.expectedTimestamp| < s.frameDuration * 3)
    (h2 : ¬ c.timestamp - s.expectedTimestamp < -s.frameDuration * 10)
    (h3 : c.timestamp - s.expectedTimestamp < 0) :
    fillerTick s = ({ s with buffer := rest }, none) := by
  simp only [fillerTick, h, hf, Bool.false_eq_true, if_false]
  rw [if_neg h1, if_neg h2, if_pos h3]

lemma fillerTick_filler {s : FillerState} {c : MediaPacket} {rest : List MediaPacket}
    (h : s.buffer = c :: rest) (hf : s.isFirstPacket = false)
    (h1 : ¬ |c.timestamp - s.expectedTimestamp| < s.frameDuration * 3)
    (h2 : ¬ c.timestamp - s.expectedTimestamp < -s.frameDuration * 10)
    (h3 : ¬ c.timestamp - s.expectedTimestamp < 0) :
    fillerTick s =
      ({ s with expectedTimestamp := s.expectedTimestamp + s.frameDuration },
       some (.filler s.fillerData s.expectedTimestamp)) := by
  simp only [fillerTick, h, hf, Bool.false_eq_true, if_false]
  rw [if_neg h1, if_neg h2, if_neg h3]

lemma tickGood_some {s : FillerState} {e : FillerOut} (h : (fillerTick s).2 = some e)
    (hf : s.isFirstPacket = false) (hg : tickGood s = true) :
    s.expectedTimestamp ≤ e.timestamp := by
  unfold tickGood at hg
  rw [h, hf] at hg
  simpa using hg

lemma fillerRun_cons (insert : MediaPacket → List MediaPacket → List MediaPacket)
    (s : FillerState) (op : FillerOp) (ops : List FillerOp) :
    fillerRun insert s (op :: ops) =
      ((fillerRun insert (fillerStep insert s op).1 ops).1,
       (fillerStep insert s op).2 ++ (fillerRun insert (fillerStep insert s op).1 ops).2) :=
  rfl

lemma fillerStep_tick (insert : MediaPacket → List MediaPacket → List MediaPacket)
    (s : FillerState) :
    fillerStep insert s .tick = ((fillerTick s).1, (fillerTick s).2.toList) :=
  rfl

lemma fillerStep_arrive (insert : MediaPacket → List MediaPacket → List MediaPacket)
    (s : FillerState) (d : Nat) (ts : Int) :
    fillerStep insert s (.arrive d ts) = ({ s with buffer := insert ⟨d, ts⟩ s.buffer }, []) :=
  rfl

lemma fillerRun_mono (insert : MediaPacket → List MediaPacket → List MediaPacket) :
    ∀ (ops : List FillerOp) (s : FillerState),
      0 ≤ s.frameDuration → goodRun insert s ops = true →
      ((fillerRun insert s ops).2.map FillerOut.timestamp).Pairwise (· ≤ ·) ∧
      (s.isFirstPacket = false →
        ∀ t ∈ (fillerRun insert s ops).2.map FillerOut.timestamp,
          s.expectedTimestamp ≤ t)
  | [], s, _, _ => by simp [fillerRun]
  | op :: ops, s, hfd, hgood => by
    rw [goodRun.eq_def, Bool.and_eq_true] at hgood
    obtain ⟨hg1, hgrest⟩ := hgood
    cases op with
    | arrive d ts =>
      rw [fillerStep_arrive] at hgrest
      have ih := fillerRun_mono insert ops { s with buffer := insert ⟨d, ts⟩ s.buffer }
        hfd hgrest
      rw [fillerRun_cons, fillerStep_arrive]
      simp only [List.nil_append]
      exact ⟨ih.1, fun h t ht => ih.2 h t ht⟩
    | tick =>
      rw [fillerStep_tick] at hgrest
      rw [fillerRun_cons, fillerStep_tick]
      rcases hb : s.buffer with _ | ⟨c, rest⟩
      · have ht := fillerTick_nil hb
        rw [ht] at hgrest ⊢
        have ih := fillerRun_mono insert ops s hfd hgrest
        exact ⟨ih.1, fun h t htm => ih.2 h t htm⟩
      · rcases hf : s.isFirstPacket with _ | _
        · by_cases h1 : |c.timestamp - s.expectedTimestamp| < s.frameDuration * 3
          · -- near branch: emit the real packet
            have ht := fillerTick_near hb hf h1
            have hexp : s.expectedTimestamp ≤ c.timestamp := by
              have hgs := tickGood_some (e := .real c.data c.timestamp)
                (by rw [ht]) hf hg1
              exact hgs
            rw [ht] at hgrest ⊢
            have ih := fillerRun_mono insert ops
              { s with buffer := rest, expectedTimestamp := c.timestamp + s.frameDuration }
              hfd hgrest
            obtain ⟨ihs, ihlb⟩ := ih
            have ihlb' : ∀ t ∈ (fillerRun insert
                { s with buffer := rest,
                         expectedTimestamp := c.timestamp + s.frameDuration }
                ops).2.map FillerOut.timestamp,
                c.timestamp + s.frameDuration ≤ t := fun t htm => ihlb hf t htm
            simp only [Option.toList_some, List.singleton_append, List.map_cons]
            rw [List.pairwise_cons]
            refine ⟨⟨fun t htm => ?_, ihs⟩, fun _ t htm => ?_⟩
            · have h := ihlb' t htm
              simp only [FillerOut.timestamp]
              linarith
            · rw [List.mem_cons] at htm
              rcases htm with h | h
              · subst h
                simp only [FillerOut.timestamp]
                linarith
              · have h2 := ihlb' t h
                linarith
          · by_cases h2 : c.timestamp - s.expectedTimestamp < -s.frameDuration * 10
            · -- resync branch: backward-safety rules it out
              have ht := fillerTick_resync hb hf h1 h2
              have hexp : s.expectedTimestamp ≤ c.timestamp :=
                tickGood_some (e := .real c.data c.timestamp) (by rw [ht]) hf hg1
              exfalso
              have hexp' : s.expectedTimestamp ≤ c.timestamp := hexp
              linarith
            · by_cases h3 : c.timestamp - s.expectedTimestamp < 0
              · -- silent drop: no emission
                have ht := fillerTick_drop hb hf h1 h2 h3
                rw [ht] at hgrest ⊢
                have ih := fillerRun_mono insert ops { s with buffer := rest } hfd hgrest
                exact ⟨ih.1, fun _ t htm => ih.2 hf t htm⟩
              · -- filler frame at the expected timestamp
                have ht := fillerTick_filler hb hf h1 h2 h3
                rw [ht] at hgrest ⊢
                have ih := fillerRun_mono insert ops
                  { s with expectedTimestamp := s.expectedTimestamp + s.frameDuration }
                  hfd hgrest
                obtain ⟨ihs, ihlb⟩ := ih
                have ihlb' : ∀ t ∈ (fillerRun insert
                    { s with expectedTimestamp :=
                        s.expectedTimestamp + s.frameDuration }
                    ops).2.map FillerOut.timestamp,
                    s.expectedTimestamp + s.frameDuration ≤ t :=
                  fun t htm => ihlb hf t htm
                simp only [Option.toList_some, List.singleton_append, List.map_cons]
                rw [List.pairwise_cons]
                refine ⟨⟨fun t htm => ?_, ihs⟩, fun _ t htm => ?_⟩
                · have h := ihlb' t htm
                  simp only [FillerOut.timestamp]
                  linarith
                · rw [List.mem_cons] at htm
                  rcases htm with h | h
                  · subst h
                    simp only [FillerOut.timestamp]
                    linarith
                  · have h4 := ihlb' t h
                    linarith
        · -- first packet: emit it and sync expected to its timestamp
          have ht := fillerTick_first hb hf
          rw [ht] at hgrest ⊢
          have ih := fillerRun_mono insert ops
            { s with buffer := rest, expectedTimestamp := c.timestamp,
                     isFirstPacket := false }
            hfd hgrest
          obtain ⟨ihs, ihlb⟩ := ih
          have ihlb' : ∀ t ∈ (fillerRun insert
              { s with buffer := rest, expectedTimestamp := c.timestamp,
                       isFirstPacket := false }
              ops).2.map FillerOut.timestamp,
              c.timestamp ≤ t := fun t htm => ihlb rfl t htm
          simp only [Option.toList_some, List.singleton_append, List.map_cons]
          rw [List.pairwise_cons]
          refine ⟨⟨fun t htm => ?_, ihs⟩, fun habs t htm => ?_⟩
          · have h := ihlb' t htm
            simp only [FillerOut.timestamp]
            linarith
          · exact absurd habs (by simp)

/-- C4 (amended): along any filler schedule in which every emitted real
packet is at or after the filler's expected timestamp (no backward
re-sync and no behind-schedule near emission), the emitted timestamp
sequence is non-decreasing - not strictly increasing, since the tick
after the first packet can emit at the same timestamp. -/
theorem c4_amended (insert : MediaPacket → List MediaPacket → List MediaPacket)
    (ops : List FillerOp) (s : FillerState)
    (hfd : 0 ≤ s.frameDuration) (hgood : goodRun insert s ops = true) :
    ((fillerRun insert s ops).2.map FillerOut.timestamp).Pairwise (· ≤ ·) :=
  (fillerRun_mono insert ops s hfd hgood).1

/-- C4 (witness): the amended theorem applied to a concrete backward-safe
schedule. -/
theorem c4_witness :
    0 ≤ (initFiller 20 0).frameDuration ∧
    goodRun processBufferAudio (initFiller 20 0)
      [.arrive 1 1000, .tick, .arrive 2 1020, .tick] = true ∧
    ((fillerRun processBufferAudio (initFiller 20 0)
      [.arrive 1 1000, .tick, .arrive 2 1020, .tick]).2.map FillerOut.timestamp).Pairwise
      (· ≤ ·) :=
  ⟨by decide, by decide,
   c4_amended processBufferAudio [.arrive 1 1000, .tick, .arrive 2 1020, .tick]
     (initFiller 20 0) (by decide) (by decide)⟩

/-- C4 (counterexample): a packet at 1000 followed by a late packet at
500 makes the audio filler re-sync and emit timestamps `[1000, 500]`,
so the claimed strict monotonicity over every arrival order is false. -/
theorem c4_counterexample :
    ((fillerRun processBufferAudio (initFiller 20 0)
      [.arrive 1 1000, .tick, .arrive 2 500, .tick]).2.map FillerOut.timestamp) =
      [1000, 500] ∧
    ¬ ((fillerRun processBufferAudio (initFiller 20 0)
      [.arrive 1 1000, .tick, .arrive 2 500, .tick]).2.map FillerOut.timestamp).Pairwise
      (· < ·) := by
  constructor
  · decide
  · decide

/-- C5 (amended): a filler tick emits at most one frame, and emits
exactly one iff the buffer is non-empty and the tick does not silently
drop a small-backward-jump packet (`diff` in the closed interval
from `-10*frameDuration` to `-3*frameDuration`, both ends dropping). -/
theorem c5_amended (s : FillerState) :
    ((fillerTick s).2).isSome = (decide (s.buffer ≠ []) && !tickDrops s) := by
  rcases hb : s.buffer with _ | ⟨c, rest⟩
  · rw [fillerTick_nil hb]
    simp [tickDrops, hb]
  · rcases hf : s.isFirstPacket with _ | _
    · by_cases h1 : |c.timestamp - s.expectedTimestamp| < s.frameDuration * 3
      · rw [fillerTick_near hb hf h1]
        simp [tickDrops, hb, hf, h1]
      · by_cases h2 : c.timestamp - s.expectedTimestamp < -s.frameDuration * 10
        · rw [fillerTick_resync hb hf h1 h2]
          simp [tickDrops, hb, hf, h1, h2]
          left
          linarith
        · by_cases h3 : c.timestamp - s.expectedTimestamp < 0
          · rw [fillerTick_drop hb hf h1 h2 h3]
            simp [tickDrops, hb, hf, h1, h2, h3]
            linarith
          · rw [fillerTick_filler hb hf h1 h2 h3]
            simp [tickDrops, hb, hf, h1, h2, h3]
    · rw [fillerTick_first hb hf]
      simp [tickDrops, hb, hf]

/-- C5 (counterexample): a tick on an empty buffer, and a tick whose head
packet is a small backward jump, both emit no frame, so the claimed
"exactly one output frame per tick for every buffer state" is false. -/
theorem c5_counterexample :
    (fillerTick (initFiller 20 7)).2 = none ∧
    (fillerTick { expectedTimestamp := 1000, isFirstPacket := false,
                  buffer := [⟨5, 900⟩], frameDuration := 20, fillerData := 7 }).2 = none := by
  constructor
  · decide
  · decide

/-- C6: with `diff` the gap between the earliest buffered packet and
`expected`, a non-first tick emits the real packet and re-arms
`expected = packet.timestamp + frameDuration` when `|diff| < 3*fd`,
re-syncs the same way when `diff < -10*fd`, silently drops the packet
for other negative `diff`, and otherwise (`diff > 0`) emits a filler
frame and advances `expected` by one frame. -/
theorem c6_theorem (s : FillerState) (c : MediaPacket) (rest : List MediaPacket)
    (hb : s.buffer = c :: rest) (hf : s.isFirstPacket = false)
    (hfd : 0 < s.frameDuration) :
    (|c.timestamp - s.expectedTimestamp| < s.frameDuration * 3 →
      fillerTick s =
        ({ s with buffer := rest,
                  expectedTimestamp := c.timestamp + s.frameDuration },
         some (.real c.data c.timestamp))) ∧
    (¬ |c.timestamp - s.expectedTimestamp| < s.frameDuration * 3 →
      c.timestamp - s.expectedTimestamp < -s.frameDuration * 10 →
      fillerTick s =
        ({ s with buffer := rest,
                  expectedTimestamp := c.timestamp + s.frameDuration },
         some (.real c.data c.timestamp))) ∧
    (¬ |c.timestamp - s.expectedTimestamp| < s.frameDuration * 3 →
      ¬ c.timestamp - s.expectedTimestamp < -s.frameDuration * 10 →
      c.timestamp - s.expectedTimestamp < 0 →
      fillerTick s = ({ s with buffer := rest }, none)) ∧
    (¬ |c.timestamp - s.expectedTimestamp| < s.frameDuration * 3 →
      0 < c.timestamp - s.expectedTimestamp →
      fillerTick s =
        ({ s with expectedTimestamp := s.expectedTimestamp + s.frameDuration },
         some (.filler s.fillerData s.expectedTimestamp))) := by
  refine ⟨fun h1 => fillerTick_near hb hf h1,
          fun h1 h2 => fillerTick_resync hb hf h1 h2,
          fun h1 h2 h3 => fillerTick_drop hb hf h1 h2 h3,
          fun h1 hpos => fillerTick_filler hb hf h1 (by linarith) (by linarith)⟩

/-- C6 (witness): the near-branch of the theorem applied to a concrete
filler state. -/
theorem c6_witness :
    fillerTick ⟨1000, false, [⟨3, 1010⟩], 20, 9⟩ =
      (⟨1030, false, [], 20, 9⟩, some (.real 3 1010)) :=
  (c6_theorem ⟨1000, false, [⟨3, 1010⟩], 20, 9⟩ ⟨3, 1010⟩ [] rfl rfl (by decide)).1 (by decide)

lemma bufferRun_cons (b : TranscriptBuffer) (op : BufferOp) (ops : List BufferOp) :
    bufferRun b (op :: ops) =
      ((bufferRun (bufferStep b op).1 ops).1,
       (bufferStep b op).2 ++ (bufferRun (bufferStep b op).1 ops).2) :=
  rfl

lemma triggerChunkFlush_empty {b : TranscriptBuffer} (h : b.utterances = []) :
    triggerChunkFlush b = (b, []) := by
  simp [triggerChunkFlush, h]

lemma triggerChunkFlush_nonempty {b : TranscriptBuffer} {u0 : Utterance}
    {rest : List Utterance} (h : b.utterances = u0 :: rest) :
    triggerChunkFlush b =
      ({ b with utterances := [], wordCount := 0, chunkSeq := b.chunkSeq + 1,
                speakerLastSummarized := [] },
       [.chunk b.meetingId
          (joinWith "\n" ((u0 :: rest).map (fun u => u.speakerName ++ ": " ++ u.text)))
          (jsDedup ((u0 :: rest).map (fun u => u.speakerId)))
          (jsDedup ((u0 :: rest).map (fun u => u.speakerName)))
          u0.timestamp
          ((u0 :: rest).getLast (List.cons_ne_nil u0 rest)).timestamp
          (b.meetingId ++ "-chunk-" ++ toString (b.chunkSeq + 1))]) := by
  simp [triggerChunkFlush, h]

lemma triggerChunkFlush_utterances (b : TranscriptBuffer) :
    (triggerChunkFlush b).1.utterances = [] := by
  rcases h : b.utterances with _ | ⟨u0, rest⟩
  · rw [triggerChunkFlush_empty h, h]
  · rw [triggerChunkFlush_nonempty h]

lemma triggerSpeakerSummary_eq_nil {b : TranscriptBuffer} {sp : String}
    (h : unsummarizedFor b sp = []) :
    triggerSpeakerSummary b sp = (b, []) := by
  simp [triggerSpeakerSummary, h]

lemma triggerSpeakerSummary_eq_cons {b : TranscriptBuffer} {sp : String}
    {w : Utterance} {ws : List Utterance} (h : unsummarizedFor b sp = w :: ws) :
    triggerSpeakerSummary b sp =
      ({ b with speakerLastSummarized :=
          mapSet b.speakerLastSummarized sp (b.utterances.length - 1) },
       [.summarize b.meetingId sp
          ((w :: ws).getLast (List.cons_ne_nil w ws)).speakerName
          (joinWith " " ((w :: ws).map (fun u => u.text)))
          (speakerCount b sp)]) := by
  rw [triggerSpeakerSummary, h]
  simp [List.getLast?_eq_getLast]

lemma triggerSpeakerSummary_state (b : TranscriptBuffer) (sp : String) :
    (triggerSpeakerSummary b sp).1.meetingId = b.meetingId ∧
    (triggerSpeakerSummary b sp).1.utterances = b.utterances ∧
    (triggerSpeakerSummary b sp).1.chunkSeq = b.chunkSeq ∧
    chunkIds (triggerSpeakerSummary b sp).2 = [] := by
  rcases h : unsummarizedFor b sp with _ | ⟨w, ws⟩
  · rw [triggerSpeakerSummary_eq_nil h]
    exact ⟨rfl, rfl, rfl, rfl⟩
  · rw [triggerSpeakerSummary_eq_cons h]
    exact ⟨rfl, rfl, rfl, rfl⟩

lemma runSummaries_state : ∀ (l : List String) (b : TranscriptBuffer),
    (runSummaries b l).1.meetingId = b.meetingId ∧
    (runSummaries b l).1.utterances = b.utterances ∧
    (runSummaries b l).1.chunkSeq = b.chunkSeq ∧
    chunkIds (runSummaries b l).2 = []
  | [], b => ⟨rfl, rfl, rfl, rfl⟩
  | sp :: sps, b => by
    have h1 := triggerSpeakerSummary_state b sp
    have ih := runSummaries_state sps (triggerSpeakerSummary b sp).1
    rw [runSummaries]
    refine ⟨?_, ?_, ?_, ?_⟩
    · rw [ih.1, h1.1]
    · rw [ih.2.1, h1.2.1]
    · rw [ih.2.2.1, h1.2.2.1]
    · rw [chunkIds, List.filterMap_append]
      rw [chunkIds] at ih h1
      rw [h1.2.2.2, ih.2.2.2, List.nil_append]

lemma triggerChunkFlush_chunkIds (b : TranscriptBuffer) :
    ∃ m, chunkIds (triggerChunkFlush b).2 =
        (List.range' (b.chunkSeq + 1) m).map
          (fun k => b.meetingId ++ "-chunk-" ++ toString k) ∧
      (triggerChunkFlush b).1.chunkSeq = b.chunkSeq + m ∧
      (triggerChunkFlush b).1.meetingId = b.meetingId := by
  rcases h : b.utterances with _ | ⟨u0, rest⟩
  · refine ⟨0, ?_, ?_, ?_⟩
    · rw [triggerChunkFlush_empty h]
      rfl
    · rw [triggerChunkFlush_empty h]
      show b.chunkSeq = b.chunkSeq + 0
      omega
    · rw [triggerChunkFlush_empty h]
  · refine ⟨1, ?_, ?_, ?_⟩
    · rw [triggerChunkFlush_nonempty h]
      simp [chunkIds, List.range']
    · rw [triggerChunkFlush_nonempty h]
    · rw [triggerChunkFlush_nonempty h]

lemma bufferStep_chunkIds (b : TranscriptBuffer) (op : BufferOp) :
    ∃ m, chunkIds (bufferStep b op).2 =
        (List.range' (b.chunkSeq + 1) m).map
          (fun k => b.meetingId ++ "-chunk-" ++ toString k) ∧
      (bufferStep b op).1.chunkSeq = b.chunkSeq + m ∧
      (bufferStep b op).1.meetingId = b.meetingId := by
  cases op with
  | append u =>
    rw [bufferStep, TranscriptBuffer.append]
    by_cases hw : 500 ≤ b.wordCount + jsWordCount u.text
    · rw [if_pos hw]
      exact triggerChunkFlush_chunkIds _
    · rw [if_neg hw]
      exact ⟨0, rfl, rfl, rfl⟩
  | summariesTimer =>
    have h := runSummaries_state (speakersWithNew b) b
    refine ⟨0, ?_, ?_, ?_⟩
    · rw [bufferStep, triggerSummaries, h.2.2.2]
      rfl
    · rw [bufferStep, triggerSummaries, h.2.2.1]
      omega
    · rw [bufferStep, triggerSummaries, h.1]
  | idleTimer sp =>
    have h := triggerSpeakerSummary_state b sp
    refine ⟨0, ?_, ?_, ?_⟩
    · rw [bufferStep, h.2.2.2]
      rfl
    · rw [bufferStep, h.2.2.1]
      omega
    · rw [bufferStep, h.1]
  | chunkTimer => exact triggerChunkFlush_chunkIds b

lemma bufferRun_chunkIds : ∀ (ops : List BufferOp) (b : TranscriptBuffer),
    ∃ n, chunkIds (bufferRun b ops).2 =
        (List.range' (b.chunkSeq + 1) n).map
          (fun k => b.meetingId ++ "-chunk-" ++ toString k) ∧
      (bufferRun b ops).1.chunkSeq = b.chunkSeq + n
  | [], b => ⟨0, rfl, rfl⟩
  | op :: ops, b => by
    obtain ⟨m, hev, hseq, hmid⟩ := bufferStep_chunkIds b op
    obtain ⟨n, ihev, ihseq⟩ := bufferRun_chunkIds ops (bufferStep b op).1
    refine ⟨m + n, ?_, ?_⟩
    · rw [bufferRun_cons]
      show chunkIds ((bufferStep b op).2 ++ (bufferRun (bufferStep b op).1 ops).2) = _
      rw [chunkIds, List.filterMap_append]
      rw [chunkIds] at hev ihev
      rw [hev, ihev, hseq, hmid]
      rw [← List.map_append]
      congr 1
      have : b.chunkSeq + m + 1 = (b.chunkSeq + 1) + 1 * m := by ring
      rw [this, List.range'_append]
      congr 1
      omega
    · rw [bufferRun_cons]
      show (bufferRun (bufferStep b op).1 ops).1.chunkSeq = _
      rw [ihseq, hseq]
      ring

/-- C2: flushing a non-empty buffer emits one chunk whose text joins the
buffered utterances in append order as `<speakerName>: <text>` on
newlines, clears the utterance buffer, and across any run from a fresh
buffer the emitted chunk ids are `<meetingId>-chunk-<seq>` with `seq`
running contiguously over `1..N`. -/
theorem c2_theorem :
    (∀ (b : TranscriptBuffer) (u0 : Utterance) (rest : List Utterance),
       b.utterances = u0 :: rest →
       triggerChunkFlush b =
         ({ b with utterances := [], wordCount := 0, chunkSeq := b.chunkSeq + 1,
                   speakerLastSummarized := [] },
          [.chunk b.meetingId
             (joinWith "\n"
               ((u0 :: rest).map (fun u => u.speakerName ++ ": " ++ u.text)))
             (jsDedup ((u0 :: rest).map (fun u => u.speakerId)))
             (jsDedup ((u0 :: rest).map (fun u => u.speakerName)))
             u0.timestamp
             ((u0 :: rest).getLast (List.cons_ne_nil u0 rest)).timestamp
             (b.meetingId ++ "-chunk-" ++ toString (b.chunkSeq + 1))])) ∧
    (∀ (mid : String) (ops : List BufferOp),
       chunkIds (bufferRun (initBuffer mid) ops).2 =
         (List.range' 1 (chunkIds (bufferRun (initBuffer mid) ops).2).length).map
           (fun k => mid ++ "-chunk-" ++ toString k)) := by
  constructor
  · intro b u0 rest h
    exact triggerChunkFlush_nonempty h
  · intro mid ops
    obtain ⟨n, h, _⟩ := bufferRun_chunkIds ops (initBuffer mid)
    have hmid : (initBuffer mid).meetingId = mid := rfl
    have hseq : (initBuffer mid).chunkSeq = 0 := rfl
    rw [hmid, hseq] at h
    have hlen : (chunkIds (bufferRun (initBuffer mid) ops).2).length = n := by
      rw [h, List.length_map, List.length_range']
    rw [hlen, h]

/-- C2 (witness): the theorem applied to a concrete one-utterance buffer
and a concrete append-then-flush schedule. -/
theorem c2_witness :
    (⟨"m", [⟨"A", "Alice", "hi", "t1"⟩], [], 1, 0⟩ : TranscriptBuffer).utterances =
      ⟨"A", "Alice", "hi", "t1"⟩ :: [] ∧
    triggerChunkFlush ⟨"m", [⟨"A", "Alice", "hi", "t1"⟩], [], 1, 0⟩ =
      (⟨"m", [], [], 0, 1⟩,
       [.chunk "m" "Alice: hi" ["A"] ["Alice"] "t1" "t1" "m-chunk-1"]) ∧
    chunkIds (bufferRun (initBuffer "m")
        [.append ⟨"A", "Alice", "hi", "t1"⟩, .chunkTimer]).2 =
      (List.range' 1 (chunkIds (bufferRun (initBuffer "m")
        [.append ⟨"A", "Alice", "hi", "t1"⟩, .chunkTimer]).2).length).map
        (fun k => "m" ++ "-chunk-" ++ toString k) := by
  refine ⟨rfl, ?_, c2_theorem.2 "m" [.append ⟨"A", "Alice", "hi", "t1"⟩, .chunkTimer]⟩
  have h := c2_theorem.1 ⟨"m", [⟨"A", "Alice", "hi", "t1"⟩], [], 1, 0⟩
    ⟨"A", "Alice", "hi", "t1"⟩ [] rfl
  rw [h]
  decide

lemma pairwise_le_of_all_eq {l : List Nat} {c : Nat} (h : ∀ x ∈ l, x = c) :
    l.Pairwise (· ≤ ·) := by
  induction l with
  | nil => simp
  | cons a l ih =>
    rw [List.pairwise_cons]
    refine ⟨fun y hy => ?_, ih (fun x hx => h x (List.mem_cons_of_mem a hx))⟩
    rw [h a (List.mem_cons_self a l), h y (List.mem_cons_of_mem a hy)]

lemma speakerCount_congr {b b' : TranscriptBuffer} (h : b'.utterances = b.utterances)
    (sp : String) : speakerCount b' sp = speakerCount b sp := by
  rw [speakerCount, speakerCount, h]

lemma speakerCount_le_append (b : TranscriptBuffer) (ext : List Utterance) (sp : String)
    {b' : TranscriptBuffer} (h : b'.utterances = b.utterances ++ ext) :
    speakerCount b sp ≤ speakerCount b' sp := by
  rw [speakerCount, speakerCount, h, List.filter_append, List.length_append]
  exact Nat.le_add_right _ _

lemma segCountsFor_chunk_nil (sp : String) (b : TranscriptBuffer) :
    segCountsFor sp (triggerChunkFlush b).2 = [] := by
  rcases h : b.utterances with _ | ⟨u0, rest⟩
  · rw [triggerChunkFlush_empty h]
    rfl
  · rw [triggerChunkFlush_nonempty h]
    rfl

lemma triggerSpeakerSummary_seg (b : TranscriptBuffer) (sp sq : String) :
    ∀ n ∈ segCountsFor sq (triggerSpeakerSummary b sp).2, n = speakerCount b sq := by
  rcases h : unsummarizedFor b sp with _ | ⟨w, ws⟩
  · rw [triggerSpeakerSummary_eq_nil h]
    intro n hn
    simp [segCountsFor] at hn
  · rw [triggerSpeakerSummary_eq_cons h]
    intro n hn
    simp only [segCountsFor, List.filterMap] at hn
    by_cases hsp : sp == sq
    · rw [if_pos hsp] at hn
      simp at hn
      rw [hn]
      have : sp = sq := by simpa using hsp
      rw [this]
    · rw [if_neg hsp] at hn
      simp at hn

lemma runSummaries_seg : ∀ (l : List String) (b : TranscriptBuffer) (sq : String),
    ∀ n ∈ segCountsFor sq (runSummaries b l).2, n = speakerCount b sq
  | [], b, sq => by
    intro n hn
    simp [runSummaries, segCountsFor] at hn
  | sp :: sps, b, sq => by
    intro n hn
    rw [runSummaries] at hn
    simp only [segCountsFor, List.filterMap_append, List.mem_append] at hn
    rcases hn with hn | hn
    · exact triggerSpeakerSummary_seg b sp sq n hn
    · have ih := runSummaries_seg sps (triggerSpeakerSummary b sp).1 sq n hn
      rw [ih]
      exact speakerCount_congr (triggerSpeakerSummary_state b sp).2.1 sq

lemma triggerChunkFlush_no_chunk {c : TranscriptBuffer}
    (hnc : ∀ e ∈ (triggerChunkFlush c).2, e.isChunk = false) :
    triggerChunkFlush c = (c, []) ∧ c.utterances = [] := by
  rcases h : c.utterances with _ | ⟨u0, rest⟩
  · exact ⟨triggerChunkFlush_empty h, rfl⟩
  · exfalso
    have hm := hnc _ (by rw [triggerChunkFlush_nonempty h]; exact List.mem_cons_self _ _)
    simp [BufferEvent.isChunk] at hm

lemma bufferStep_seg (b : TranscriptBuffer) (op : BufferOp) (sp : String)
    (hnc : ∀ e ∈ (bufferStep b op).2, e.isChunk = false) :
    (∀ n ∈ segCountsFor sp (bufferStep b op).2, n = speakerCount b sp) ∧
    ∃ ext, (bufferStep b op).1.utterances = b.utterances ++ ext := by
  cases op with
  | append u =>
    simp only [bufferStep, TranscriptBuffer.append] at hnc ⊢
    by_cases hw : 500 ≤ b.wordCount + jsWordCount u.text
    · rw [if_pos hw] at hnc ⊢
      have h2 := triggerChunkFlush_no_chunk hnc
      exfalso
      have h3 : b.utterances ++ [u] = [] := h2.2
      simp at h3
    · rw [if_neg hw] at hnc ⊢
      refine ⟨fun n hn => ?_, ⟨[u], rfl⟩⟩
      simp [segCountsFor] at hn
  | summariesTimer =>
    rw [bufferStep, triggerSummaries] at hnc ⊢
    refine ⟨runSummaries_seg _ b sp, ⟨[], ?_⟩⟩
    rw [List.append_nil]
    exact (runSummaries_state _ b).2.1
  | idleTimer sq =>
    rw [bufferStep] at hnc ⊢
    refine ⟨triggerSpeakerSummary_seg b sq sp, ⟨[], ?_⟩⟩
    rw [List.append_nil]
    exact (triggerSpeakerSummary_state b sq).2.1
  | chunkTimer =>
    rw [bufferStep] at hnc ⊢
    have h2 := triggerChunkFlush_no_chunk hnc
    refine ⟨fun n hn => ?_, ⟨[], ?_⟩⟩
    · rw [h2.1] at hn
      simp [segCountsFor] at hn
    · rw [List.append_nil, h2.1]

lemma bufferRun_seg_sorted : ∀ (ops : List BufferOp) (b : TranscriptBuffer) (sp : String),
    (∀ e ∈ (bufferRun b ops).2, e.isChunk = false) →
    (segCountsFor sp (bufferRun b ops).2).Pairwise (· ≤ ·) ∧
    ∀ n ∈ segCountsFor sp (bufferRun b ops).2, speakerCount b sp ≤ n
  | [], b, sp, _ => by simp [bufferRun, segCountsFor]
  | op :: ops, b, sp, hnc => by
    rw [bufferRun_cons] at hnc ⊢
    simp only [List.mem_append] at hnc
    have hnc1 : ∀ e ∈ (bufferStep b op).2, e.isChunk = false :=
      fun e he => hnc e (Or.inl he)
    have hnc2 : ∀ e ∈ (bufferRun (bufferStep b op).1 ops).2, e.isChunk = false :=
      fun e he => hnc e (Or.inr he)
    obtain ⟨hstep, ext, hext⟩ := bufferStep_seg b op sp hnc1
    obtain ⟨ihs, ihlb⟩ := bufferRun_seg_sorted ops (bufferStep b op).1 sp hnc2
    have hmono : speakerCount b sp ≤ speakerCount (bufferStep b op).1 sp :=
      speakerCount_le_append b ext sp hext
    constructor
    · show (segCountsFor sp ((bufferStep b op).2 ++
        (bufferRun (bufferStep b op).1 ops).2)).Pairwise (· ≤ ·)
      rw [segCountsFor, List.filterMap_append]
      rw [List.pairwise_append]
      refine ⟨pairwise_le_of_all_eq hstep, ihs, fun x hx y hy => ?_⟩
      rw [hstep x hx]
      exact le_trans hmono (ihlb y hy)
    · show ∀ n ∈ segCountsFor sp ((bufferStep b op).2 ++
        (bufferRun (bufferStep b op).1 ops).2), speakerCount b sp ≤ n
      rw [segCountsFor, List.filterMap_append]
      intro n hn
      rw [List.mem_append] at hn
      rcases hn with hn | hn
      · rw [hstep n hn]
      · exact le_trans hmono (ihlb n hn)

lemma joinWith_space_ne_empty {w : String} {ws : List String} (hw : w ≠ "") :
    joinWith " " (w :: ws) ≠ "" := by
  cases ws with
  | nil => simpa [joinWith]
  | cons y ys =>
    rw [joinWith]
    intro h
    have hd := congrArg String.data h
    rw [String.data_append, String.data_append] at hd
    simp at hd

lemma mem_unsummarizedFor {b : TranscriptBuffer} {sp : String} {u : Utterance}
    (h : u ∈ unsummarizedFor b sp) : u ∈ b.utterances := by
  rw [unsummarizedFor] at h
  exact (List.drop_sublist _ _).mem (List.mem_of_mem_filter h)

lemma unsummarizedFor_sublist (b : TranscriptBuffer) (sp : String) :
    (unsummarizedFor b sp).Sublist b.utterances :=
  (List.filter_sublist _).trans (List.drop_sublist _ _)

lemma recentTexts_chunkFlush (b : TranscriptBuffer) :
    recentTexts (triggerChunkFlush b).2 = [] := by
  rcases h : b.utterances with _ | ⟨u0, rest⟩
  · rw [triggerChunkFlush_empty h]
    rfl
  · rw [triggerChunkFlush_nonempty h]
    rfl

lemma triggerSpeakerSummary_recent_sub (b : TranscriptBuffer) (sp : String) :
    ∀ t ∈ recentTexts (triggerSpeakerSummary b sp).2,
      ∃ us : List Utterance, us.Sublist b.utterances ∧ us ≠ [] ∧
        t = joinWith " " (us.map (fun u => u.text)) := by
  rcases h : unsummarizedFor b sp with _ | ⟨w, ws⟩
  · rw [triggerSpeakerSummary_eq_nil h]
    intro t ht
    simp [recentTexts] at ht
  · rw [triggerSpeakerSummary_eq_cons h]
    intro t ht
    simp only [recentTexts, List.filterMap] at ht
    simp at ht
    refine ⟨w :: ws, ?_, List.cons_ne_nil w ws, ht⟩
    rw [← h]
    exact unsummarizedFor_sublist b sp

lemma runSummaries_recent_sub : ∀ (l : List String) (b : TranscriptBuffer),
    ∀ t ∈ recentTexts (runSummaries b l).2,
      ∃ us : List Utterance, us.Sublist b.utterances ∧ us ≠ [] ∧
        t = joinWith " " (us.map (fun u => u.text))
  | [], b => by
    intro t ht
    simp [runSummaries, recentTexts] at ht
  | sp :: sps, b => by
    intro t ht
    rw [runSummaries] at ht
    simp only [recentTexts, List.filterMap_append, List.mem_append] at ht
    rcases ht with ht | ht
    · exact triggerSpeakerSummary_recent_sub b sp t ht
    · obtain ⟨us, hsub, hne, hjoin⟩ :=
        runSummaries_recent_sub sps (triggerSpeakerSummary b sp).1 t ht
      rw [(triggerSpeakerSummary_state b sp).2.1] at hsub
      exact ⟨us, hsub, hne, hjoin⟩

lemma bufferRun_recent_sub : ∀ (ops : List BufferOp) (b : TranscriptBuffer)
    (A : List Utterance), b.utterances.Sublist A →
    ∀ t ∈ recentTexts (bufferRun b ops).2,
      ∃ us : List Utterance, us.Sublist (A ++ appendedUtterances ops) ∧ us ≠ [] ∧
        t = joinWith " " (us.map (fun u => u.text))
  | [], b, A, _ => by
    intro t ht
    simp [bufferRun, recentTexts] at ht
  | op :: ops, b, A, hA => by
    intro t ht
    rw [bufferRun_cons] at ht
    simp only [recentTexts, List.filterMap_append, List.mem_append] at ht
    cases op with
    | append u =>
      have hstep : recentTexts (bufferStep b (.append u)).2 = [] := by
        simp only [bufferStep, TranscriptBuffer.append]
        by_cases hw : 500 ≤ b.wordCount + jsWordCount u.text
        · rw [if_pos hw]
          exact recentTexts_chunkFlush _
        · rw [if_neg hw]
          rfl
      rcases ht with ht | ht
      · rw [recentTexts] at hstep
        rw [hstep] at ht
        simp at ht
      · have hsub1 : (bufferStep b (.append u)).1.utterances.Sublist (A ++ [u]) := by
          simp only [bufferStep, TranscriptBuffer.append]
          by_cases hw : 500 ≤ b.wordCount + jsWordCount u.text
          · rw [if_pos hw]
            rw [triggerChunkFlush_utterances]
            exact List.nil_sublist _
          · rw [if_neg hw]
            exact List.Sublist.append hA (List.Sublist.refl [u])
        obtain ⟨us, hsub, hne, hjoin⟩ :=
          bufferRun_recent_sub ops (bufferStep b (.append u)).1 (A ++ [u]) hsub1 t ht
        refine ⟨us, ?_, hne, hjoin⟩
        have heq : (A ++ [u]) ++ appendedUtterances ops =
            A ++ appendedUtterances (BufferOp.append u :: ops) := by
          simp [appendedUtterances, List.append_assoc]
        rw [heq] at hsub
        exact hsub
    | summariesTimer =>
      rcases ht with ht | ht
      · obtain ⟨us, hsub, hne, hjoin⟩ := runSummaries_recent_sub (speakersWithNew b) b t ht
        exact ⟨us, (hsub.trans hA).trans (List.sublist_append_left A _), hne, hjoin⟩
      · have hu : (bufferStep b .summariesTimer).1.utterances.Sublist A := by
          rw [bufferStep, triggerSummaries, (runSummaries_state _ b).2.1]
          exact hA
        obtain ⟨us, hsub, hne, hjoin⟩ :=
          bufferRun_recent_sub ops (bufferStep b .summariesTimer).1 A hu t ht
        exact ⟨us, hsub, hne, hjoin⟩
    | idleTimer sq =>
      rcases ht with ht | ht
      · obtain ⟨us, hsub, hne, hjoin⟩ := triggerSpeakerSummary_recent_sub b sq t ht
        exact ⟨us, (hsub.trans hA).trans (List.sublist_append_left A _), hne, hjoin⟩
      · have hu : (bufferStep b (.idleTimer sq)).1.utterances.Sublist A := by
          rw [bufferStep, (triggerSpeakerSummary_state b sq).2.1]
          exact hA
        obtain ⟨us, hsub, hne, hjoin⟩ :=
          bufferRun_recent_sub ops (bufferStep b (.idleTimer sq)).1 A hu t ht
        exact ⟨us, hsub, hne, hjoin⟩
    | chunkTimer =>
      rcases ht with ht | ht
      · have hstep := recentTexts_chunkFlush b
        rw [recentTexts] at hstep
        rw [bufferStep] at ht
        rw [hstep] at ht
        simp at ht
      · have hu : (bufferStep b .chunkTimer).1.utterances.Sublist A := by
          rw [bufferStep, triggerChunkFlush_utterances]
          exact List.nil_sublist _
        obtain ⟨us, hsub, hne, hjoin⟩ :=
          bufferRun_recent_sub ops (bufferStep b .chunkTimer).1 A hu t ht
        exact ⟨us, hsub, hne, hjoin⟩

/-- C3 (amended): a `summarize` event's `segmentCount` equals the
speaker's utterance count in the current buffer (i.e. since the last
chunk flush), not the cumulative meeting-wide count, and the counts are
non-decreasing only along runs that emit no chunk. -/
theorem c3_amended :
    (∀ (b : TranscriptBuffer) (sp : String) (n : Nat),
       n ∈ segCountsFor sp (triggerSpeakerSummary b sp).2 → n = speakerCount b sp) ∧
    (∀ (ops : List BufferOp) (b : TranscriptBuffer) (sp : String),
       (∀ e ∈ (bufferRun b ops).2, e.isChunk = false) →
       (segCountsFor sp (bufferRun b ops).2).Pairwise (· ≤ ·)) :=
  ⟨fun b sp n hn => triggerSpeakerSummary_seg b sp sp n hn,
   fun ops b sp hnc => (bufferRun_seg_sorted ops b sp hnc).1⟩

/-- C3 (witness): the amended theorem applied to a concrete buffer and a
concrete chunk-free schedule. -/
theorem c3_witness :
    (1 ∈ segCountsFor "A"
        (triggerSpeakerSummary ⟨"m", [⟨"A", "Alice", "x", "t"⟩], [], 1, 0⟩ "A").2 ∧
      (1 : Nat) = speakerCount ⟨"m", [⟨"A", "Alice", "x", "t"⟩], [], 1, 0⟩ "A") ∧
    ((∀ e ∈ (bufferRun (initBuffer "m")
        [.append ⟨"A", "Alice", "x", "t1"⟩, .idleTimer "A",
         .append ⟨"A", "Alice", "y", "t2"⟩, .idleTimer "A"]).2, e.isChunk = false) ∧
      (segCountsFor "A" (bufferRun (initBuffer "m")
        [.append ⟨"A", "Alice", "x", "t1"⟩, .idleTimer "A",
         .append ⟨"A", "Alice", "y", "t2"⟩, .idleTimer "A"]).2).Pairwise (· ≤ ·)) :=
  ⟨⟨by decide, c3_amended.1 ⟨"m", [⟨"A", "Alice", "x", "t"⟩], [], 1, 0⟩ "A" 1 (by decide)⟩,
   ⟨by decide, c3_amended.2
      [.append ⟨"A", "Alice", "x", "t1"⟩, .idleTimer "A",
       .append ⟨"A", "Alice", "y", "t2"⟩, .idleTimer "A"]
      (initBuffer "m") "A" (by decide)⟩⟩

/-- C3 (counterexample): two utterances, a summary (`segmentCount = 2`),
a chunk flush, one more utterance and a second summary give
`segmentCount = 1` although the speaker's cumulative count is 3, so the
claimed cumulative, non-decreasing `segmentCount` is false across chunk
flushes. -/
theorem c3_counterexample :
    segCountsFor "A" (bufferRun (initBuffer "m")
      [.append ⟨"A", "Alice", "x", "t1"⟩, .append ⟨"A", "Alice", "y", "t2"⟩,
       .idleTimer "A", .chunkTimer, .append ⟨"A", "Alice", "z", "t3"⟩,
       .idleTimer "A"]).2 = [2, 1] ∧
    ¬ (segCountsFor "A" (bufferRun (initBuffer "m")
      [.append ⟨"A", "Alice", "x", "t1"⟩, .append ⟨"A", "Alice", "y", "t2"⟩,
       .idleTimer "A", .chunkTimer, .append ⟨"A", "Alice", "z", "t3"⟩,
       .idleTimer "A"]).2).Pairwise (· ≤ ·) ∧
    ((appendedUtterances
      [.append ⟨"A", "Alice", "x", "t1"⟩, .append ⟨"A", "Alice", "y", "t2"⟩,
       .idleTimer "A", .chunkTimer, .append ⟨"A", "Alice", "z", "t3"⟩,
       .idleTimer "A"]).filter (fun u => u.speakerId == "A")).length = 3 := by
  refine ⟨by decide, by decide, by decide⟩

/-- C9 (amended): a speaker summary never fires without unsummarised
utterances, and provided every appended utterance has non-empty text,
no `summarize` event carries an empty `recentText`. -/
theorem c9_amended :
    (∀ (b : TranscriptBuffer) (sp : String),
       unsummarizedFor b sp = [] → triggerSpeakerSummary b sp = (b, [])) ∧
    (∀ (mid : String) (ops : List BufferOp),
       (∀ u ∈ appendedUtterances ops, u.text ≠ "") →
       ∀ t ∈ recentTexts (bufferRun (initBuffer mid) ops).2, t ≠ "") := by
  refine ⟨fun b sp h => triggerSpeakerSummary_eq_nil h, ?_⟩
  intro mid ops hall t ht
  obtain ⟨us, hsub, hne, hjoin⟩ :=
    bufferRun_recent_sub ops (initBuffer mid) [] (List.Sublist.refl []) t ht
  rcases us with _ | ⟨w, ws⟩
  · exact absurd rfl hne
  · rw [hjoin, List.map_cons]
    apply joinWith_space_ne_empty
    apply hall
    have hw : w ∈ [] ++ appendedUtterances ops := hsub.mem (List.mem_cons_self w ws)
    simpa using hw

/-- C9 (witness): the amended theorem applied to an empty buffer and to
a concrete schedule of non-empty texts. -/
theorem c9_witness :
    (unsummarizedFor ⟨"m", [], [], 0, 0⟩ "A" = [] ∧
      triggerSpeakerSummary ⟨"m", [], [], 0, 0⟩ "A" = (⟨"m", [], [], 0, 0⟩, [])) ∧
    ((∀ u ∈ appendedUtterances
        [BufferOp.append ⟨"A", "Alice", "hello", "t1"⟩, .idleTimer "A"], u.text ≠ "") ∧
      ∀ t ∈ recentTexts (bufferRun (initBuffer "m")
        [BufferOp.append ⟨"A", "Alice", "hello", "t1"⟩, .idleTimer "A"]).2, t ≠ "") :=
  ⟨⟨by decide, c9_amended.1 ⟨"m", [], [], 0, 0⟩ "A" (by decide)⟩,
   ⟨by decide, c9_amended.2 "m"
      [BufferOp.append ⟨"A", "Alice", "hello", "t1"⟩, .idleTimer "A"] (by decide)⟩⟩

/-- C9 (counterexample): appending a single utterance with empty text
and firing the speaker-idle trigger emits a `summarize` event whose
`recentText` is the empty string, so the unconditional claim is
false. -/
theorem c9_counterexample :
    recentTexts (bufferRun (initBuffer "m")
      [BufferOp.append ⟨"A", "Alice", "", "t1"⟩, .idleTimer "A"]).2 = [""] := by
  decide

/-- C10: a chunk flush of a non-empty buffer clears both the utterance
list and every per-speaker summarisation mark, and every `recentText`
of a summary emitted after the flush is built solely from utterances
appended after the flush. -/
theorem c10_theorem :
    (∀ (b : TranscriptBuffer) (u0 : Utterance) (rest : List Utterance),
       b.utterances = u0 :: rest →
       (triggerChunkFlush b).1.utterances = [] ∧
       (triggerChunkFlush b).1.speakerLastSummarized = []) ∧
    (∀ (b : TranscriptBuffer) (ops : List BufferOp),
       ∀ t ∈ recentTexts (bufferRun (triggerChunkFlush b).1 ops).2,
         ∃ us : List Utterance, us.Sublist (appendedUtterances ops) ∧ us ≠ [] ∧
           t = joinWith " " (us.map (fun u => u.text))) := by
  constructor
  · intro b u0 rest h
    rw [triggerChunkFlush_nonempty h]
    exact ⟨rfl, rfl⟩
  · intro b ops t ht
    have h0 : (triggerChunkFlush b).1.utterances.Sublist [] := by
      rw [triggerChunkFlush_utterances]
    obtain ⟨us, hsub, hne, hjoin⟩ :=
      bufferRun_recent_sub ops (triggerChunkFlush b).1 [] h0 t ht
    rw [List.nil_append] at hsub
    exact ⟨us, hsub, hne, hjoin⟩

/-- C10 (witness): the theorem applied to a concrete buffer holding an
unsummarised utterance at flush time. -/
theorem c10_witness :
    ((⟨"m", [⟨"A", "Alice", "old", "t0"⟩], [("A", 0)], 1, 0⟩ :
        TranscriptBuffer).utterances = ⟨"A", "Alice", "old", "t0"⟩ :: [] ∧
      (triggerChunkFlush
        ⟨"m", [⟨"A", "Alice", "old", "t0"⟩], [("A", 0)], 1, 0⟩).1.utterances = [] ∧
      (triggerChunkFlush
        ⟨"m", [⟨"A", "Alice", "old", "t0"⟩],
          [("A", 0)], 1, 0⟩).1.speakerLastSummarized = []) ∧
    ∀ t ∈ recentTexts (bufferRun
        (triggerChunkFlush
          ⟨"m", [⟨"A", "Alice", "old", "t0"⟩], [("A", 0)], 1, 0⟩).1
        [BufferOp.append ⟨"A", "Alice", "new", "t1"⟩, .idleTimer "A"]).2,
      ∃ us : List Utterance,
        us.Sublist (appendedUtterances
          [BufferOp.append ⟨"A", "Alice", "new", "t1"⟩, .idleTimer "A"]) ∧ us ≠ [] ∧
        t = joinWith " " (us.map (fun u => u.text)) := by
  have h1 := c10_theorem.1 ⟨"m", [⟨"A", "Alice", "old", "t0"⟩], [("A", 0)], 1, 0⟩
    ⟨"A", "Alice", "old", "t0"⟩ [] rfl
  exact ⟨⟨rfl, h1.1, h1.2⟩,
    c10_theorem.2 ⟨"m", [⟨"A", "Alice", "old", "t0"⟩], [("A", 0)], 1, 0⟩
      [BufferOp.append ⟨"A", "Alice", "new", "t1"⟩, .idleTimer "A"]⟩

/-- C1 (witness): the amended theorem applied to the concrete split-mode
connection with requested mask 25. -/
theorem c1_witness :
    (⟨true, false⟩ : SignalingConn).useUnifiedMediaSocket = false ∧
    urlsAudioOnly.all = some "wss://all.example" ∧
    wssUrlParses "wss://all.example" = true ∧
    (calculateEffectiveFlags 25 urlsAudioOnly =
       (if 25 = 32 then availableMask urlsAudioOnly else 25) ∧
     (handleSignalingHandshakeResp wssUrlParses 0 urlsAudioOnly 25
        ⟨true, false⟩).threw = false ∧
     (handleSignalingHandshakeResp wssUrlParses 0 urlsAudioOnly 25
        ⟨true, false⟩).openedSockets.length =
       popcount (calculateEffectiveFlags 25 urlsAudioOnly % 32) ∧
     ∀ u' : ServerUrls, u'.all = none →
       (handleSignalingHandshakeResp wssUrlParses 0 u' 25 ⟨true, false⟩).threw = true ∧
       (handleSignalingHandshakeResp wssUrlParses 0 u' 25
         ⟨true, false⟩).openedSockets = []) :=
  ⟨rfl, rfl, by decide,
   c1_amended wssUrlParses 25 urlsAudioOnly ⟨true, false⟩ "wss://all.example"
     rfl rfl (by decide)⟩

/-- C8 (witness): the theorem applied to status 15 (auth,
non-retryable). -/
theorem c8_witness :
    (15 : Nat) ≠ 0 ∧
    (handleSignalingHandshakeResp wssUrlParses 15 urlsAudioOnly 32 ⟨true, false⟩).emittedErrorCategory =
      some (fromZoomStatusCategory 15) ∧
    (nonRetryableCategories.contains (fromZoomStatusCategory 15) = true →
      (handleSignalingHandshakeResp wssUrlParses 15 urlsAudioOnly 32
        ⟨true, false⟩).conn.shouldReconnect = false ∧
      scheduleReconnectOnClose (handleSignalingHandshakeResp wssUrlParses 15 urlsAudioOnly 32
        ⟨true, false⟩).conn = false) ∧
    (nonRetryableCategories.contains (fromZoomStatusCategory 15) = false →
      (handleSignalingHandshakeResp wssUrlParses 15 urlsAudioOnly 32
        ⟨true, false⟩).conn.shouldReconnect =
        (⟨true, false⟩ : SignalingConn).shouldReconnect ∧
      scheduleReconnectOnClose (handleSignalingHandshakeResp wssUrlParses 15 urlsAudioOnly 32
        ⟨true, false⟩).conn = (⟨true, false⟩ : SignalingConn).shouldReconnect) := by
  refine ⟨by decide, ?_, ?_, ?_⟩
  · exact (c8_theorem wssUrlParses 15 urlsAudioOnly 32 ⟨true, false⟩ (by decide)).1
  · exact (c8_theorem wssUrlParses 15 urlsAudioOnly 32 ⟨true, false⟩ (by decide)).2.1
  · exact (c8_theorem wssUrlParses 15 urlsAudioOnly 32 ⟨true, false⟩ (by decide)).2.2
